import Mathlib

/-!
Verification of the array interop layer of the `isa` Python binding
(`src/pyutils.cpp`): the conversion between NumPy arrays (the host's
`DenseBuffer`) and Eigen `MatrixXf` (the `NativeMatrix`).

Embedding notes.

* Element values are 32-bit float payloads that the conversion layer only
  moves, never computes with; we model them as `Nat` bit patterns.
* Host memory is an explicit heap `Nat → Nat` (one address per float slot),
  so that copying versus aliasing is observable: `PyArray_ToMatrixXf` reads
  the heap, `PyArray_FromMatrixXf` writes a freshly allocated block.
* Eigen's compile-time default storage order (the
  `EIGEN_DEFAULT_TO_ROW_MAJOR` preprocessor flag) is threaded through as an
  explicit `defRM : Bool` parameter, per the build-time configuration
  constant it is.
* `MatrixXf` stores its coefficients linearly in the build-default order,
  exactly as `mat.data()` exposes them.  Constructing a `MatrixXf` from an
  Eigen `Map` expression (what `return Map<...>(...)` does in the source,
  since the function returns `MatrixXf` by value) allocates fresh storage
  and copies the mapped coefficients coefficient-wise; `copyMap` below is
  that construction.
-/

set_option autoImplicit false

namespace Cisa

/-- NumPy element-type tags (`PyArray_DESCR(array)->type` characters).  Only
the distinction "is `NPY_FLOAT` or not" matters to the code under proof; a
few other dtypes are listed so that mismatching buffers exist. -/
inductive NpyType where
  | npyFloat
  | npyDouble
  | npyInt32
  | npyInt64
  | npyBool
  deriving DecidableEq, Repr

/-- Host float memory: one 32-bit float payload per address. -/
def Heap : Type := Nat → Nat

/-- A single store through the buffer's memory. -/
def Heap.write (h : Heap) (a v : Nat) : Heap :=
  fun x => if x = a then v else h x

/-- The aggregate effect of the copy loop `for i: dst[base+i] := data[i]`:
addresses in `[base, base + data.length)` hold the copied values, all other
addresses are untouched. -/
def writeBlock (h : Heap) (base : Nat) (data : List Nat) : Heap :=
  fun a => if base ≤ a ∧ a < base + data.length then data.getD (a - base) 0 else h a

/-- The heap block of `n` consecutive values starting at `base`. -/
def readBlock (h : Heap) (base n : Nat) : List Nat :=
  (List.range n).map (fun i => h (base + i))

/-- A NumPy array header (the `DenseBuffer` of the spec): element type,
shape, the two contiguity flags of `PyArray_FLAGS`, and the address of its
data in the heap. -/
structure PyArrayObject where
  descrType : NpyType
  dims : List Nat
  fContiguous : Bool
  cContiguous : Bool
  base : Nat
  deriving DecidableEq, Repr

/-- `PyArray_NDIM`. -/
def PyArrayObject.ndim (a : PyArrayObject) : Nat := a.dims.length

/-- `PyArray_DIM(array, i)`. -/
def PyArrayObject.dim (a : PyArrayObject) (i : Nat) : Nat := a.dims.getD i 0

/-- Total number of elements of the array. -/
def PyArrayObject.size (a : PyArrayObject) : Nat := a.dims.foldr (· * ·) 1

/-- An Eigen `MatrixXf` (the `NativeMatrix`): owning dense storage, laid out
linearly in the build-default storage order.  Invariant (guaranteed by
Eigen, taken as a hypothesis where needed): `data.length = rows * cols`. -/
structure MatrixXf where
  rows : Nat
  cols : Nat
  data : List Nat
  deriving DecidableEq, Repr

/-- `mat.size()`. -/
def MatrixXf.size (m : MatrixXf) : Nat := m.rows * m.cols

/-- Linear index of logical entry `(i, j)` of an `r × c` matrix stored
row-major (`rm = true`) or column-major (`rm = false`). -/
def linIndex (rm : Bool) (r c i j : Nat) : Nat :=
  if rm then i * c + j else j * r + i

/-- Logical entry `(i, j)` of a matrix whose storage follows the
build-default order `defRM`. -/
def MatrixXf.entry (defRM : Bool) (m : MatrixXf) (i j : Nat) : Nat :=
  m.data.getD (linIndex defRM m.rows m.cols i j) 0

/-- Storage index, in map order `mapRM`, of the coefficient that the
build-default order `defRM` places at linear position `k` of an `r × c`
matrix. -/
def permIdx (defRM mapRM : Bool) (r c k : Nat) : Nat :=
  let i := if defRM then k / c else k % r
  let j := if defRM then k % c else k / r
  linIndex mapRM r c i j

/-- Constructing a `MatrixXf` (default order `defRM`) from an Eigen
`Map<Matrix<float, Dynamic, Dynamic, mapRM>>` over the `r * c` floats at
`base`: fresh storage is allocated and every coefficient is copied out of
the mapped memory.  This is what `return Map<...>(...)` performs in
`PyArray_ToMatrixXf`, whose return type is the owning `MatrixXf`. -/
def copyMap (defRM mapRM : Bool) (h : Heap) (base r c : Nat) : MatrixXf :=
  { rows := r
    cols := c
    data := (List.range (r * c)).map (fun k => h (base + permIdx defRM mapRM r c k)) }

def msgFloat : String := "Can only handle arrays of float values."

def msgContiguous : String := "Data must be stored in contiguous memory."

def msgOneOrTwoDim : String := "Can only handle one- or two-dimensional arrays."

/-- `PyArray_ToMatrixXf` (src/pyutils.cpp, lines 29-66): validates dtype,
rank and contiguity, then returns the mapped buffer contents as an owning
`MatrixXf`; a thrown `Exception` is the `.error` case. -/
def PyArray_ToMatrixXf (defRM : Bool) (h : Heap) (array : PyArrayObject) :
    Except String MatrixXf :=
  if array.descrType ≠ NpyType.npyFloat then
    .error msgFloat
  else if array.ndim = 1 then
    if array.fContiguous then
      .ok (copyMap defRM false h array.base (array.dim 0) 1)
    else if array.cContiguous then
      .ok (copyMap defRM true h array.base (array.dim 0) 1)
    else
      .error msgContiguous
  else if array.ndim = 2 then
    if array.fContiguous then
      .ok (copyMap defRM false h array.base (array.dim 0) (array.dim 1))
    else if array.cContiguous then
      .ok (copyMap defRM true h array.base (array.dim 0) (array.dim 1))
    else
      .error msgContiguous
  else
    .error msgOneOrTwoDim

/-- NumPy marks a freshly allocated 2D array as contiguous in BOTH orders
when the shape makes the two linear layouts coincide (any dimension ≤ 1,
which includes every zero-size shape); `PyArray_New` computes the flags with
`PyArray_UpdateFlags` after building strides in the requested order. -/
def bothOrdersContig (r c : Nat) : Bool := r ≤ 1 || c ≤ 1

/-- `PyArray_FromMatrixXf` (src/pyutils.cpp, lines 4-25): allocates a new
2-dimensional `NPY_FLOAT` array of shape `rows × cols` in the build-default
order (`NPY_C_CONTIGUOUS` under `EIGEN_DEFAULT_TO_ROW_MAJOR`, else
`NPY_F_CONTIGUOUS`), then copies `mat.data()` linearly into it.  `newBase`
is the address of the fresh allocation. -/
def PyArray_FromMatrixXf (defRM : Bool) (h : Heap) (newBase : Nat) (mat : MatrixXf) :
    PyArrayObject × Heap :=
  ({ descrType := NpyType.npyFloat
     dims := [mat.rows, mat.cols]
     cContiguous := defRM || bothOrdersContig mat.rows mat.cols
     fContiguous := !defRM || bothOrdersContig mat.rows mat.cols
     base := newBase },
   writeBlock h newBase mat.data)

/-! ## Index bookkeeping lemmas -/

theorem linIndex_lt (rm : Bool) {r c i j : Nat} (hi : i < r) (hj : j < c) :
    linIndex rm r c i j < r * c := by
  unfold linIndex
  cases rm <;> simp only [if_true, if_false, Bool.false_eq_true] <;> nlinarith

theorem linIndex_degenerate (rm rm' : Bool) {r c i j : Nat} (hi : i < r) (hj : j < c)
    (hdeg : r ≤ 1 ∨ c ≤ 1) : linIndex rm r c i j = linIndex rm' r c i j := by
  have hrc : r = 1 ∨ c = 1 := by omega
  unfold linIndex
  rcases hrc with h | h
  · subst h
    have hi0 : i = 0 := by omega
    subst hi0
    cases rm <;> cases rm' <;> simp
  · subst h
    have hj0 : j = 0 := by omega
    subst hj0
    cases rm <;> cases rm' <;> simp

theorem permIdx_linIndex (defRM mapRM : Bool) {r c i j : Nat} (hi : i < r) (hj : j < c) :
    permIdx defRM mapRM r c (linIndex defRM r c i j) = linIndex mapRM r c i j := by
  have hc : 0 < c := by omega
  have hr : 0 < r := by omega
  unfold permIdx linIndex
  cases defRM
  · simp only [Bool.false_eq_true, if_false]
    have hmod : (j * r + i) % r = i := by
      rw [Nat.mul_comm j r, Nat.mul_add_mod, Nat.mod_eq_of_lt hi]
    have hdiv : (j * r + i) / r = j := by
      rw [Nat.mul_comm j r, Nat.mul_add_div hr, Nat.div_eq_of_lt hi, Nat.add_zero]
    rw [hmod, hdiv]
  · simp only [if_true]
    have hmod : (i * c + j) % c = j := by
      rw [Nat.mul_comm i c, Nat.mul_add_mod, Nat.mod_eq_of_lt hj]
    have hdiv : (i * c + j) / c = i := by
      rw [Nat.mul_comm i c, Nat.mul_add_div hc, Nat.div_eq_of_lt hj, Nat.add_zero]
    rw [hmod, hdiv]

theorem permIdx_eq_self (defRM mapRM : Bool) {r c k : Nat} (hk : k < r * c)
    (hcond : defRM = mapRM ∨ r ≤ 1 ∨ c ≤ 1) : permIdx defRM mapRM r c k = k := by
  cases defRM
  · have hr : 0 < r := by
      rcases Nat.eq_zero_or_pos r with h | h
      · subst h; simp at hk
      · exact h
    have hi : k % r < r := Nat.mod_lt _ hr
    have hj : k / r < c := by
      rw [Nat.div_lt_iff_lt_mul hr, Nat.mul_comm]
      exact hk
    have hdec : linIndex false r c (k % r) (k / r) = k := by
      unfold linIndex
      simp only [Bool.false_eq_true, if_false]
      rw [Nat.mul_comm (k / r) r, Nat.add_comm]
      exact Nat.mod_add_div k r
    have : permIdx false mapRM r c k = linIndex mapRM r c (k % r) (k / r) := rfl
    rw [this]
    cases mapRM
    · exact hdec
    · rcases hcond with h | h
      · simp at h
      · rw [linIndex_degenerate true false hi hj h]
        exact hdec
  · have hc : 0 < c := by
      rcases Nat.eq_zero_or_pos c with h | h
      · subst h; simp at hk
      · exact h
    have hj : k % c < c := Nat.mod_lt _ hc
    have hi : k / c < r := by
      rw [Nat.div_lt_iff_lt_mul hc]
      exact hk
    have hdec : linIndex true r c (k / c) (k % c) = k := by
      unfold linIndex
      simp only [if_true]
      rw [Nat.mul_comm (k / c) c, Nat.add_comm]
      exact Nat.mod_add_div k c
    have : permIdx true mapRM r c k = linIndex mapRM r c (k / c) (k % c) := rfl
    rw [this]
    cases mapRM
    · rcases hcond with h | h
      · simp at h
      · rw [linIndex_degenerate false true hi hj h]
        exact hdec
    · exact hdec

/-! ## Behaviour of `copyMap` -/

theorem copyMap_rows (defRM mapRM : Bool) (h : Heap) (base r c : Nat) :
    (copyMap defRM mapRM h base r c).rows = r := rfl

theorem copyMap_cols (defRM mapRM : Bool) (h : Heap) (base r c : Nat) :
    (copyMap defRM mapRM h base r c).cols = c := rfl

theorem copyMap_data_length (defRM mapRM : Bool) (h : Heap) (base r c : Nat) :
    (copyMap defRM mapRM h base r c).data.length = r * c := by
  simp [copyMap]

/-- The coefficient copy out of an Eigen map preserves logical entries:
entry `(i, j)` of the constructed matrix is the heap value at the
map-order linear position of `(i, j)`. -/
theorem copyMap_entry (defRM mapRM : Bool) (h : Heap) (base r c : Nat)
    {i j : Nat} (hi : i < r) (hj : j < c) :
    (copyMap defRM mapRM h base r c).entry defRM i j
      = h (base + linIndex mapRM r c i j) := by
  unfold MatrixXf.entry copyMap
  simp only
  have hlt : linIndex defRM r c i j < r * c := linIndex_lt defRM hi hj
  have hlen : ((List.range (r * c)).map
      (fun k => h (base + permIdx defRM mapRM r c k))).length = r * c := by simp
  rw [List.getD_eq_getElem _ 0 (by rw [hlen]; exact hlt)]
  rw [List.getElem_map]
  rw [List.getElem_range]
  rw [permIdx_linIndex defRM mapRM hi hj]

/-- Reading back, through a map in order `mapRM`, a block just written
linearly in default order reproduces the written data exactly, whenever the
map order agrees with the default order or the shape is degenerate. -/
theorem copyMap_writeBlock (defRM mapRM : Bool) (h : Heap) (b r c : Nat)
    (data : List Nat) (hlen : data.length = r * c)
    (hcond : defRM = mapRM ∨ r ≤ 1 ∨ c ≤ 1) :
    copyMap defRM mapRM (writeBlock h b data) b r c = ⟨r, c, data⟩ := by
  unfold copyMap
  rw [MatrixXf.mk.injEq]
  refine ⟨rfl, rfl, ?_⟩
  apply List.ext_getElem
  · simp [hlen]
  · intro k hk1 hk2
    have hk : k < r * c := by simpa using hk1
    rw [List.getElem_map, List.getElem_range]
    rw [permIdx_eq_self defRM mapRM hk hcond]
    unfold writeBlock
    have hcnd : b ≤ b + k ∧ b + k < b + data.length := by omega
    rw [if_pos hcnd]
    have : b + k - b = k := by omega
    rw [this]
    exact List.getD_eq_getElem data 0 hk2

/-- Evaluation of `PyArray_ToMatrixXf` on a 2-dimensional float array. -/
theorem toMatrixXf_float2d (defRM : Bool) (h : Heap) (fc cc : Bool) (b r c : Nat) :
    PyArray_ToMatrixXf defRM h ⟨NpyType.npyFloat, [r, c], fc, cc, b⟩ =
      (if fc then .ok (copyMap defRM false h b r c)
       else if cc then .ok (copyMap defRM true h b r c)
       else .error msgContiguous) := by
  unfold PyArray_ToMatrixXf PyArrayObject.ndim PyArrayObject.dim
  simp [List.getD]

/-- Evaluation of `PyArray_ToMatrixXf` on a 1-dimensional float array. -/
theorem toMatrixXf_float1d (defRM : Bool) (h : Heap) (fc cc : Bool) (b n : Nat) :
    PyArray_ToMatrixXf defRM h ⟨NpyType.npyFloat, [n], fc, cc, b⟩ =
      (if fc then .ok (copyMap defRM false h b n 1)
       else if cc then .ok (copyMap defRM true h b n 1)
       else .error msgContiguous) := by
  unfold PyArray_ToMatrixXf PyArrayObject.ndim PyArrayObject.dim
  simp [List.getD]

/-- C1.  Round-trip: for every native matrix `M` (any shape, either
build-default storage order), converting to a host array with
`PyArray_FromMatrixXf` and back with `PyArray_ToMatrixXf` succeeds and
returns a matrix identical to `M` — same shape and identical coefficient
storage. -/
theorem C1_roundtrip (defRM : Bool) (h : Heap) (b : Nat) (M : MatrixXf)
    (hwf : M.data.length = M.rows * M.cols) :
    PyArray_ToMatrixXf defRM (PyArray_FromMatrixXf defRM h b M).2
      (PyArray_FromMatrixXf defRM h b M).1 = .ok M := by
  obtain ⟨r, c, data⟩ := M
  have hwf' : data.length = r * c := hwf
  show PyArray_ToMatrixXf defRM (writeBlock h b data)
      ⟨NpyType.npyFloat, [r, c], !defRM || bothOrdersContig r c,
        defRM || bothOrdersContig r c, b⟩ = .ok ⟨r, c, data⟩
  rw [toMatrixXf_float2d]
  cases defRM
  · simp only [Bool.not_false, Bool.true_or, if_true]
    rw [copyMap_writeBlock false false h b r c data hwf' (Or.inl rfl)]
  · cases hb : bothOrdersContig r c
    · simp only [Bool.not_true, Bool.false_or, hb, Bool.true_or,
        Bool.false_eq_true, if_false, if_true]
      rw [copyMap_writeBlock true true h b r c data hwf' (Or.inl rfl)]
    · have hdeg : r ≤ 1 ∨ c ≤ 1 := by
        simpa [bothOrdersContig] using hb
      simp only [Bool.not_true, Bool.false_or, hb, if_true]
      rw [copyMap_writeBlock true false h b r c data hwf' (Or.inr hdeg)]

/-- Witness for C1 at a concrete non-square 2 × 3 matrix under the
row-major build default. -/
theorem C1_roundtrip_witness :
    PyArray_ToMatrixXf true
        (PyArray_FromMatrixXf true (fun _ => 0) 5 ⟨2, 3, [10, 11, 12, 13, 14, 15]⟩).2
        (PyArray_FromMatrixXf true (fun _ => 0) 5 ⟨2, 3, [10, 11, 12, 13, 14, 15]⟩).1
      = .ok ⟨2, 3, [10, 11, 12, 13, 14, 15]⟩ :=
  C1_roundtrip true (fun _ => 0) 5 ⟨2, 3, [10, 11, 12, 13, 14, 15]⟩ (by decide)

/-- C2 counterexample.  The claim says `PyArray_ToMatrixXf` produces a
non-owning view, so a write through the buffer after conversion would be
visible in the resulting matrix.  It is not: the function's return type is
the owning `MatrixXf`, so `return Map<...>(...)` copies the mapped
coefficients.  Concretely: converting the 1D float buffer at address 0 of
the heap `fun a => 10 + a` yields the matrix `[10, 11]`; storing 99 through
the buffer's first slot changes the buffer's memory to 99, yet the matrix
obtained from the conversion still holds 10 at entry (0,0). -/
theorem C2_counterexample :
    PyArray_ToMatrixXf true (fun a => 10 + a) ⟨NpyType.npyFloat, [2], true, true, 0⟩
        = .ok ⟨2, 1, [10, 11]⟩ ∧
    Heap.write (fun a => 10 + a) 0 99 0 = 99 ∧
    MatrixXf.entry true ⟨2, 1, [10, 11]⟩ 0 0 = 10 ∧
    MatrixXf.entry true ⟨2, 1, [10, 11]⟩ 0 0 ≠ Heap.write (fun a => 10 + a) 0 99 0 := by
  refine ⟨rfl, rfl, rfl, ?_⟩
  intro hcontra
  simp [MatrixXf.entry, Heap.write, linIndex, List.getD] at hcontra

/-- C2 (amended).  `PyArray_ToMatrixXf` reads the buffer through a map of
matching layout (column-major when `NPY_F_CONTIGUOUS`, else row-major), but
the matrix it returns is an owning copy whose entries are the heap values
at conversion time: entry `(i, j)` equals the heap at the buffer's base
plus the map-order linear index.  Later writes through the buffer are
therefore not reflected in the returned matrix. -/
theorem C2_owning_copy (defRM : Bool) (h : Heap) (arr : PyArrayObject) (M : MatrixXf)
    (i j : Nat) (hok : PyArray_ToMatrixXf defRM h arr = .ok M)
    (hi : i < M.rows) (hj : j < M.cols) :
    M.entry defRM i j = h (arr.base + linIndex (!arr.fContiguous) M.rows M.cols i j) := by
  unfold PyArray_ToMatrixXf at hok
  split at hok
  · exact absurd hok (by simp)
  · split at hok
    · split at hok
      next hfc =>
        rw [Except.ok.injEq] at hok
        subst hok
        rw [hfc]
        exact copyMap_entry defRM false h arr.base (arr.dim 0) 1 hi hj
      · split at hok
        next hfc hcc =>
          rw [Except.ok.injEq] at hok
          subst hok
          rw [Bool.not_eq_true] at hfc
          rw [hfc]
          exact copyMap_entry defRM true h arr.base (arr.dim 0) 1 hi hj
        · exact absurd hok (by simp)
    · split at hok
      · split at hok
        next hfc =>
          rw [Except.ok.injEq] at hok
          subst hok
          rw [hfc]
          exact copyMap_entry defRM false h arr.base (arr.dim 0) (arr.dim 1) hi hj
        · split at hok
          next hfc hcc =>
            rw [Except.ok.injEq] at hok
            subst hok
            rw [Bool.not_eq_true] at hfc
            rw [hfc]
            exact copyMap_entry defRM true h arr.base (arr.dim 0) (arr.dim 1) hi hj
          · exact absurd hok (by simp)
      · exact absurd hok (by simp)

/-- Witness for the amended C2 on a concrete 2-element column buffer. -/
theorem C2_owning_copy_witness :
    MatrixXf.entry true ⟨2, 1, [10, 11]⟩ 1 0
      = (fun a => 10 + a : Heap)
          ((⟨NpyType.npyFloat, [2], true, true, 0⟩ : PyArrayObject).base
            + linIndex (!(⟨NpyType.npyFloat, [2], true, true, 0⟩ : PyArrayObject).fContiguous)
                (MatrixXf.mk 2 1 [10, 11]).rows (MatrixXf.mk 2 1 [10, 11]).cols 1 0) :=
  C2_owning_copy true (fun a => 10 + a) ⟨NpyType.npyFloat, [2], true, true, 0⟩
    ⟨2, 1, [10, 11]⟩ 1 0 rfl (by decide) (by decide)

/-- C3.  `PyArray_FromMatrixXf` returns a freshly allocated, contiguous,
2D float32 buffer of shape `rows × cols` whose layout matches the
build-default storage order, whose element at linear index `i` equals the
matrix's backing storage at linear index `i`, and whose allocation touches
no address outside the fresh block (so it cannot alias pre-existing
storage). -/
theorem C3_fresh_contiguous_copy (defRM : Bool) (h : Heap) (b : Nat) (M : MatrixXf)
    (i a : Nat) (hwf : M.data.length = M.rows * M.cols)
    (hi : i < M.rows * M.cols) (ha : a < b ∨ b + M.rows * M.cols ≤ a) :
    (PyArray_FromMatrixXf defRM h b M).1.descrType = NpyType.npyFloat ∧
    (PyArray_FromMatrixXf defRM h b M).1.dims = [M.rows, M.cols] ∧
    (PyArray_FromMatrixXf defRM h b M).1.base = b ∧
    (defRM = true → (PyArray_FromMatrixXf defRM h b M).1.cContiguous = true) ∧
    (defRM = false → (PyArray_FromMatrixXf defRM h b M).1.fContiguous = true) ∧
    ((PyArray_FromMatrixXf defRM h b M).1.fContiguous
      || (PyArray_FromMatrixXf defRM h b M).1.cContiguous) = true ∧
    (PyArray_FromMatrixXf defRM h b M).2 (b + i) = M.data.getD i 0 ∧
    (PyArray_FromMatrixXf defRM h b M).2 a = h a := by
  obtain ⟨r, c, data⟩ := M
  have hwf' : data.length = r * c := hwf
  have hi' : i < r * c := hi
  have ha' : a < b ∨ b + r * c ≤ a := ha
  refine ⟨rfl, rfl, rfl, ?_, ?_, ?_, ?_, ?_⟩
  · intro hd
    show (defRM || bothOrdersContig r c) = true
    rw [hd, Bool.true_or]
  · intro hd
    show (!defRM || bothOrdersContig r c) = true
    rw [hd, Bool.not_false, Bool.true_or]
  · show ((!defRM || bothOrdersContig r c) || (defRM || bothOrdersContig r c)) = true
    cases defRM <;> simp
  · show writeBlock h b data (b + i) = data.getD i 0
    unfold writeBlock
    rw [if_pos (by omega)]
    congr 1
    omega
  · show writeBlock h b data a = h a
    unfold writeBlock
    rw [if_neg (by omega)]

/-- Witness for C3 on a concrete 2 × 2 matrix, probing copied index 3 and
the untouched address just below the fresh block. -/
theorem C3_fresh_contiguous_copy_witness :
    (PyArray_FromMatrixXf false (fun x => x) 7 ⟨2, 2, [4, 5, 6, 7]⟩).1.descrType
        = NpyType.npyFloat ∧
    (PyArray_FromMatrixXf false (fun x => x) 7 ⟨2, 2, [4, 5, 6, 7]⟩).1.dims = [2, 2] ∧
    (PyArray_FromMatrixXf false (fun x => x) 7 ⟨2, 2, [4, 5, 6, 7]⟩).1.base = 7 ∧
    (False → (PyArray_FromMatrixXf false (fun x => x) 7 ⟨2, 2, [4, 5, 6, 7]⟩).1.cContiguous
        = true) ∧
    (false = false →
      (PyArray_FromMatrixXf false (fun x => x) 7 ⟨2, 2, [4, 5, 6, 7]⟩).1.fContiguous = true) ∧
    ((PyArray_FromMatrixXf false (fun x => x) 7 ⟨2, 2, [4, 5, 6, 7]⟩).1.fContiguous
      || (PyArray_FromMatrixXf false (fun x => x) 7 ⟨2, 2, [4, 5, 6, 7]⟩).1.cContiguous)
        = true ∧
    (PyArray_FromMatrixXf false (fun x => x) 7 ⟨2, 2, [4, 5, 6, 7]⟩).2 (7 + 3)
        = List.getD [4, 5, 6, 7] 3 0 ∧
    (PyArray_FromMatrixXf false (fun x => x) 7 ⟨2, 2, [4, 5, 6, 7]⟩).2 6 = 6 := by
  have base := C3_fresh_contiguous_copy false (fun x => x) 7 ⟨2, 2, [4, 5, 6, 7]⟩ 3 6
    (by decide) (by decide) (by decide)
  exact ⟨base.1, base.2.1, base.2.2.1, fun hc => hc.elim, fun _ => base.2.2.2.2.1 rfl,
    base.2.2.2.2.2.1, base.2.2.2.2.2.2.1, base.2.2.2.2.2.2.2⟩

/-- C4.  A 1-dimensional float buffer of length `N`, contiguous in either
order, converts to an `N × 1` matrix — a single column vector, never
`1 × N`. -/
theorem C4_vector_is_column (defRM : Bool) (h : Heap) (arr : PyArrayObject)
    (hf : arr.descrType = NpyType.npyFloat) (h1 : arr.ndim = 1)
    (hc : arr.fContiguous = true ∨ arr.cContiguous = true) :
    (PyArray_ToMatrixXf defRM h arr).map (fun m => (m.rows, m.cols))
      = .ok (arr.dim 0, 1) := by
  unfold PyArray_ToMatrixXf
  rw [if_neg (by simp [hf]), if_pos h1]
  rcases hc with hfc | hcc
  · rw [if_pos hfc]
    rfl
  · cases hfc : arr.fContiguous
    · rw [if_neg (by simp), if_pos hcc]
      rfl
    · rw [if_pos rfl]
      rfl

/-- Witness for C4: a length-3 C-contiguous 1D buffer becomes a 3 × 1
matrix. -/
theorem C4_vector_is_column_witness :
    (PyArray_ToMatrixXf false (fun x => x) ⟨NpyType.npyFloat, [3], false, true, 0⟩).map
        (fun m => (m.rows, m.cols))
      = .ok ((⟨NpyType.npyFloat, [3], false, true, 0⟩ : PyArrayObject).dim 0, 1) :=
  C4_vector_is_column false (fun x => x) ⟨NpyType.npyFloat, [3], false, true, 0⟩
    (by decide) (by decide) (Or.inr (by decide))

/-- C5.  A buffer whose element type is not 32-bit float is rejected with
the type-mismatch message naming the float-values requirement, and no
matrix is returned. -/
theorem C5_type_mismatch (defRM : Bool) (h : Heap) (arr : PyArrayObject)
    (hne : arr.descrType ≠ NpyType.npyFloat) :
    PyArray_ToMatrixXf defRM h arr = .error msgFloat ∧
    msgFloat = "Can only handle arrays of float values." := by
  refine ⟨?_, rfl⟩
  unfold PyArray_ToMatrixXf
  rw [if_pos hne]

/-- Witness for C5 on a float64 buffer. -/
theorem C5_type_mismatch_witness :
    PyArray_ToMatrixXf true (fun x => x) ⟨NpyType.npyDouble, [2, 2], true, true, 0⟩
        = .error msgFloat ∧
    msgFloat = "Can only handle arrays of float values." :=
  C5_type_mismatch true (fun x => x) ⟨NpyType.npyDouble, [2, 2], true, true, 0⟩ (by decide)

/-- C6.  A float buffer whose rank is neither 1 nor 2 is rejected with
the dimensionality message naming the one- or two-dimensional requirement,
and no matrix is returned. -/
theorem C6_rank_mismatch (defRM : Bool) (h : Heap) (arr : PyArrayObject)
    (hf : arr.descrType = NpyType.npyFloat) (hn1 : arr.ndim ≠ 1) (hn2 : arr.ndim ≠ 2) :
    PyArray_ToMatrixXf defRM h arr = .error msgOneOrTwoDim ∧
    msgOneOrTwoDim = "Can only handle one- or two-dimensional arrays." := by
  refine ⟨?_, rfl⟩
  unfold PyArray_ToMatrixXf
  rw [if_neg (by simp [hf]), if_neg hn1, if_neg hn2]

/-- Witness for C6 on a 3-dimensional float buffer. -/
theorem C6_rank_mismatch_witness :
    PyArray_ToMatrixXf true (fun x => x) ⟨NpyType.npyFloat, [2, 2, 2], true, true, 0⟩
        = .error msgOneOrTwoDim ∧
    msgOneOrTwoDim = "Can only handle one- or two-dimensional arrays." :=
  C6_rank_mismatch true (fun x => x) ⟨NpyType.npyFloat, [2, 2, 2], true, true, 0⟩
    (by decide) (by decide) (by decide)

/-- C7.  A float buffer of rank 1 or 2 that is contiguous in neither order
(a strided slice) is rejected with the contiguity message naming the
contiguous-memory requirement, and no matrix is returned. -/
theorem C7_contiguity_violation (defRM : Bool) (h : Heap) (arr : PyArrayObject)
    (hf : arr.descrType = NpyType.npyFloat) (hn : arr.ndim = 1 ∨ arr.ndim = 2)
    (hfc : arr.fContiguous = false) (hcc : arr.cContiguous = false) :
    PyArray_ToMatrixXf defRM h arr = .error msgContiguous ∧
    msgContiguous = "Data must be stored in contiguous memory." := by
  refine ⟨?_, rfl⟩
  unfold PyArray_ToMatrixXf
  rw [if_neg (by simp [hf])]
  rcases hn with h1 | h2
  · rw [if_pos h1, if_neg (by simp [hfc]), if_neg (by simp [hcc])]
  · rw [if_neg (by omega), if_pos h2, if_neg (by simp [hfc]), if_neg (by simp [hcc])]

/-- Witness for C7 on a non-contiguous 2D float buffer. -/
theorem C7_contiguity_violation_witness :
    PyArray_ToMatrixXf true (fun x => x) ⟨NpyType.npyFloat, [2, 3], false, false, 0⟩
        = .error msgContiguous ∧
    msgContiguous = "Data must be stored in contiguous memory." :=
  C7_contiguity_violation true (fun x => x) ⟨NpyType.npyFloat, [2, 3], false, false, 0⟩
    (by decide) (Or.inr (by decide)) (by decide) (by decide)

/-- C8.  Conversion failures of `PyArray_ToMatrixXf` are surfaced as three
distinct, named conditions, each equivalent to exactly its own validation
failure: the type-mismatch message occurs iff the element type is not
float32, the dimensionality message iff the type is float32 and the rank is
neither 1 nor 2, and the contiguity message iff the type and rank are
acceptable but the buffer is contiguous in neither order.  The three
messages are pairwise distinct, so no failure is downgraded to an
indistinguishable generic one; and the function mutates nothing — it only
reads the heap and either returns a matrix or one of these errors. -/
theorem C8_distinct_error_conditions (defRM : Bool) (h : Heap) (arr : PyArrayObject) :
    (PyArray_ToMatrixXf defRM h arr = .error msgFloat ↔
      arr.descrType ≠ NpyType.npyFloat) ∧
    (PyArray_ToMatrixXf defRM h arr = .error msgOneOrTwoDim ↔
      (arr.descrType = NpyType.npyFloat ∧ arr.ndim ≠ 1 ∧ arr.ndim ≠ 2)) ∧
    (PyArray_ToMatrixXf defRM h arr = .error msgContiguous ↔
      (arr.descrType = NpyType.npyFloat ∧ (arr.ndim = 1 ∨ arr.ndim = 2) ∧
        arr.fContiguous = false ∧ arr.cContiguous = false)) ∧
    msgFloat ≠ msgOneOrTwoDim ∧ msgFloat ≠ msgContiguous ∧
    msgOneOrTwoDim ≠ msgContiguous := by
  have hm1 : msgFloat ≠ msgOneOrTwoDim := by decide
  have hm2 : msgFloat ≠ msgContiguous := by decide
  have hm3 : msgOneOrTwoDim ≠ msgContiguous := by decide
  have hm4 : msgOneOrTwoDim ≠ msgFloat := by decide
  have hm5 : msgContiguous ≠ msgFloat := by decide
  have hm6 : msgContiguous ≠ msgOneOrTwoDim := by decide
  refine ⟨?_, ?_, ?_, hm1, hm2, hm3⟩ <;>
    · unfold PyArray_ToMatrixXf
      split_ifs <;> simp_all [Bool.not_eq_true]

/-- C9.  Zero-size shapes cross the boundary without failure: a native
matrix with zero rows or zero columns becomes an empty 2D buffer of the
same shape, and a float buffer of rank 1 or 2, contiguous in some order,
with a zero-size dimension converts successfully to an empty matrix. -/
theorem C9_zero_size (defRM : Bool) (h : Heap) (b : Nat) (M : MatrixXf)
    (arr : PyArrayObject) (hM : M.rows = 0 ∨ M.cols = 0)
    (hf : arr.descrType = NpyType.npyFloat) (hnd : arr.ndim = 1 ∨ arr.ndim = 2)
    (hcg : arr.fContiguous = true ∨ arr.cContiguous = true) (hz : 0 ∈ arr.dims) :
    (PyArray_FromMatrixXf defRM h b M).1.dims = [M.rows, M.cols] ∧
    (PyArray_FromMatrixXf defRM h b M).1.ndim = 2 ∧
    (PyArray_FromMatrixXf defRM h b M).1.size = 0 ∧
    (PyArray_ToMatrixXf defRM h arr).map (fun m => (m.rows * m.cols, m.data))
      = .ok (0, []) := by
  obtain ⟨dt, dims, fc, cc, ab⟩ := arr
  have hf' : dt = NpyType.npyFloat := hf
  subst hf'
  refine ⟨rfl, rfl, ?_, ?_⟩
  · show List.foldr (· * ·) 1 [M.rows, M.cols] = 0
    rcases hM with h0 | h0 <;> simp [h0]
  · have hnd' : dims.length = 1 ∨ dims.length = 2 := hnd
    have hz' : 0 ∈ dims := hz
    rcases hnd' with h1 | h2
    · obtain ⟨d, rest⟩ : ∃ d rest, dims = d :: rest := by
        cases dims with
        | nil => simp at h1
        | cons d rest => exact ⟨d, rest, rfl⟩
      obtain ⟨rest, hdims⟩ := rest
      subst hdims
      have hrest : rest = [] := by
        simpa using h1
      subst hrest
      have hd : d = 0 := by
        simp at hz'
        omega
      subst hd
      rw [toMatrixXf_float1d]
      rcases hcg with hflag | hflag <;> cases hfc : fc <;>
        simp_all [copyMap, Except.map]
    · obtain ⟨d1, d2, hdims⟩ : ∃ d1 d2, dims = [d1, d2] := by
        cases dims with
        | nil => simp at h2
        | cons d1 rest =>
          cases rest with
          | nil => simp at h2
          | cons d2 rest2 =>
            cases rest2 with
            | nil => exact ⟨d1, d2, rfl⟩
            | cons x xs => simp at h2
      subst hdims
      have hd : d1 = 0 ∨ d2 = 0 := by
        simp at hz'
        omega
      have hd0 : d1 * d2 = 0 := by rcases hd with h0 | h0 <;> simp [h0]
      rw [toMatrixXf_float2d]
      rcases hcg with hflag | hflag <;> cases hfc : fc <;>
        simp_all [copyMap, Except.map, hd0]

/-- Witness for C9: a 0 × 2 native matrix outbound and a length-0 1D buffer
inbound. -/
theorem C9_zero_size_witness :
    (PyArray_FromMatrixXf true (fun x => x) 0 ⟨0, 2, []⟩).1.dims = [0, 2] ∧
    (PyArray_FromMatrixXf true (fun x => x) 0 ⟨0, 2, []⟩).1.ndim = 2 ∧
    (PyArray_FromMatrixXf true (fun x => x) 0 ⟨0, 2, []⟩).1.size = 0 ∧
    (PyArray_ToMatrixXf true (fun x => x) ⟨NpyType.npyFloat, [0], true, true, 0⟩).map
        (fun m => (m.rows * m.cols, m.data)) = .ok (0, []) :=
  C9_zero_size true (fun x => x) 0 ⟨0, 2, []⟩ ⟨NpyType.npyFloat, [0], true, true, 0⟩
    (Or.inl rfl) rfl (Or.inl rfl) (Or.inl rfl) (by decide)

/-- C10.  The validation checks run in a fixed order — element type, then
rank, then contiguity: a non-float buffer always fails with the type
message whatever its rank and flags, and a float buffer of rank other than
1 or 2 always fails with the dimensionality message whatever its flags. -/
theorem C10_validation_order (defRM : Bool) (h : Heap) (arr : PyArrayObject) :
    (arr.descrType ≠ NpyType.npyFloat →
      PyArray_ToMatrixXf defRM h arr = .error msgFloat) ∧
    (arr.descrType = NpyType.npyFloat → arr.ndim ≠ 1 → arr.ndim ≠ 2 →
      PyArray_ToMatrixXf defRM h arr = .error msgOneOrTwoDim) := by
  constructor
  · intro hne
    unfold PyArray_ToMatrixXf
    rw [if_pos hne]
  · intro hf hn1 hn2
    unfold PyArray_ToMatrixXf
    rw [if_neg (by simp [hf]), if_neg hn1, if_neg hn2]

end Cisa
